import Mathlib

/-!
Verification of the Timon storage/query engine core against its
natural-language specification.  The definitions below are a shallow
embedding of the Rust sources under `src/timon_engine/` (helpers.rs,
db_manager.rs, cloud_sync.rs, mod.rs).  JSON numbers are modelled with
the same tag split serde_json uses (integer vs. floating number); the
numeric payload of a floating number is kept as an exact rational, which
is faithful for the short decimal literals the claims exercise.
External collaborators (the DataFusion SQL engine, the parquet codec,
the object store) are treated as black boxes, exactly as the spec's
scope section prescribes.
-/

namespace Timon

mutual

/-- serde_json::Value.  `jint` covers the integer number representations
(PosInt/NegInt), `jfloat` the f64 representation; objects keep their
fields as an association list with the first binding authoritative.
The element sequences are spelled as their own mutual inductives so
that recursion over values stays structural. -/
inductive Json where
  | null
  | jbool (b : Bool)
  | jint (n : Int)
  | jfloat (q : Rat)
  | jstr (s : String)
  | jarr (elems : JsonList)
  | jobj (fields : JsonObj)

/-- The element sequence of a JSON array. -/
inductive JsonList where
  | nil
  | cons (hd : Json) (tl : JsonList)

/-- The member sequence of a JSON object. -/
inductive JsonObj where
  | nil
  | cons (key : String) (val : Json) (tl : JsonObj)

end

/-- View of an array's elements as a plain list. -/
def JsonList.toList : JsonList → List Json
  | .nil => []
  | .cons h t => h :: t.toList

/-- View of an object's members as a plain association list. -/
def JsonObj.toList : JsonObj → List (String × Json)
  | .nil => []
  | .cons k v t => (k, v) :: t.toList

/-- First-match association lookup, the behaviour of a serde_json map
whose keys are unique. -/
def assocLookup : List (String × Json) → String → Option Json
  | [], _ => none
  | (k, v) :: rest, key => if k = key then some v else assocLookup rest key

/-- Value::as_object. -/
def Json.as_object : Json → Option (List (String × Json))
  | .jobj fs => some fs.toList
  | _ => none

/-- Value::get(key) — `None` on non-objects. -/
def json_get (v : Json) (key : String) : Option Json :=
  match v with
  | .jobj fs => assocLookup fs.toList key
  | _ => none

/-- Value::as_i64 — only the integer number representation answers. -/
def Json.as_i64 : Json → Option Int
  | .jint n => some n
  | _ => none

/-- Value::as_f64 — integers are widened, floats returned as stored. -/
def Json.as_f64 : Json → Option Rat
  | .jint n => some (n : Rat)
  | .jfloat q => some q
  | _ => none

/-- Value::as_str. -/
def Json.as_str : Json → Option String
  | .jstr s => some s
  | _ => none

/-- Value::as_bool. -/
def Json.as_bool : Json → Option Bool
  | .jbool b => some b
  | _ => none

/-- Whether the first list is a prefix of the second. -/
def isPrefixChars : List Char → List Char → Bool
  | [], _ => true
  | _ :: _, [] => false
  | p :: ps, c :: cs => p = c && isPrefixChars ps cs

/-- str::starts_with over the character views. -/
def strStartsWith (s pre : String) : Bool := isPrefixChars pre.data s.data

/-- Byte-lexicographic str ordering (the Ord the sink's `<` compare
uses); the month stamps compared are ASCII. -/
def charListLt : List Char → List Char → Bool
  | [], [] => false
  | [], _ :: _ => true
  | _ :: _, [] => false
  | a :: as, b :: bs => a < b || (a = b && charListLt as bs)

/-- str `<` over the character views. -/
def strLt (a b : String) : Bool := charListLt a.data b.data

/-- str::split(sep) accumulated into segments. -/
def splitOnCharAux (sep : Char) : List Char → List Char → List String
  | [], acc => [String.mk acc.reverse]
  | c :: rest, acc =>
    if c = sep then String.mk acc.reverse :: splitOnCharAux sep rest []
    else splitOnCharAux sep rest (c :: acc)

/-- str::split over a one-character separator. -/
def splitOnChar (sep : Char) (s : String) : List String := splitOnCharAux sep s.data []

/-- str::replace with the empty pattern: the replacement is inserted at
every character boundary. -/
def interleavePat (rep : List Char) : List Char → List Char
  | [] => rep
  | c :: cs => rep ++ c :: interleavePat rep cs

/-- str::replace with a non-empty pattern `p :: ps`: leftmost,
non-overlapping; the fuel is an upper bound on the characters left. -/
def replaceNE (p : Char) (ps rep : List Char) : Nat → List Char → List Char
  | _, [] => []
  | 0, cs => cs
  | fuel + 1, c :: cs =>
    if isPrefixChars (p :: ps) (c :: cs) then rep ++ replaceNE p ps rep fuel (cs.drop ps.length)
    else c :: replaceNE p ps rep fuel cs

/-- str::replace. -/
def replaceChars (s pat rep : String) : String :=
  match pat.data with
  | [] => String.mk (interleavePat rep.data s.data)
  | p :: ps => String.mk (replaceNE p ps rep.data s.data.length s.data)

/-- Left-pad a natural number with zeroes to the given width. -/
def padNat (width : Nat) (n : Nat) : String :=
  let s := toString n
  String.mk (List.replicate (width - s.length) '0') ++ s

/-- Escaping of the two JSON string metacharacters; the records the
claims exercise contain no control characters. -/
def escapeJsonString (s : String) : String :=
  s.data.foldl
    (fun acc c =>
      if c = '"' then acc ++ "\\\""
      else if c = '\\' then acc ++ "\\\\"
      else acc.push c) ""

/-- Drop trailing zero digits but keep at least one digit. -/
def stripTrailingZeros (s : String) : String :=
  match s.data.reverse.dropWhile (fun c => c = '0') with
  | [] => "0"
  | cs => String.mk cs.reverse

/-- Least k ≤ fuel with d ∣ 10^k (d = 1 gives 0). -/
def leastPow10 (d : Nat) : Nat → Option Nat
  | 0 => if d ∣ 1 then some 0 else none
  | fuel + 1 =>
    match leastPow10 d fuel with
    | some k => some k
    | none => if d ∣ 10 ^ (fuel + 1) then some (fuel + 1) else none

/-- Decimal rendering of a rational number, modelling how serde_json
prints an f64: every f64 is a dyadic rational, so its denominator
divides a power of ten and the expansion below is exact (the shortest
round-trip refinement of ryu is abstracted away). -/
def decimalString (q : Rat) : String :=
  let sign := if q < 0 then "-" else ""
  let n := q.num.natAbs
  let d := q.den
  match leastPow10 d 1100 with
  | some k =>
    let scaled := n * 10 ^ k / d
    let ip := scaled / 10 ^ k
    let fp := scaled % 10 ^ k
    sign ++ toString ip ++ "." ++ stripTrailingZeros (padNat k fp)
  | none => sign ++ toString n ++ "/" ++ toString d

mutual

/-- serde_json::Value::to_string — the serialization used by insert's
unique-key construction (`record.get(field).map(|v| v.to_string())`). -/
def Json.serialize : Json → String
  | .null => "null"
  | .jbool b => cond b "true" "false"
  | .jint n => toString n
  | .jfloat q => decimalString q
  | .jstr s => "\"" ++ escapeJsonString s ++ "\""
  | .jarr xs => "[" ++ serializeArr xs ++ "]"
  | .jobj fs => "\x7b" ++ serializeObj fs ++ "\x7d"

/-- Comma-joined serialization of array elements. -/
def serializeArr : JsonList → String
  | .nil => ""
  | .cons x .nil => Json.serialize x
  | .cons x rest => Json.serialize x ++ "," ++ serializeArr rest

/-- Comma-joined serialization of object members. -/
def serializeObj : JsonObj → String
  | .nil => ""
  | .cons k v .nil => "\"" ++ escapeJsonString k ++ "\":" ++ Json.serialize v
  | .cons k v rest =>
    "\"" ++ escapeJsonString k ++ "\":" ++ Json.serialize v ++ "," ++ serializeObj rest

end

/-! ## Codec bridge: JSON → columnar (helpers.rs, json_to_arrow) -/

/-- The arrow data types the inference in json_to_arrow can produce.
`list t` carries the element type of the single "item" child field. -/
inductive DataType where
  | int64
  | float64
  | utf8
  | boolean
  | nullT
  | list (item : DataType)
  deriving DecidableEq

/-- resolve_data_type_conflict: the promotion rule of the inference
scan.  Int64 and Float64 join to Float64 in either order, equal types
are kept, and any other conflict prefers the newly seen type. -/
def resolve_data_type_conflict (current : Option DataType) (newType : DataType) : DataType :=
  match current, newType with
  | none, n => n
  | some .int64, .float64 => .float64
  | some .float64, .int64 => .float64
  | some c, n => if c = n then c else n

/-- The per-value type detection of the inference scan.  Arrays take
their element type from the first element; an empty array or an array
whose first element is not a scalar yields a list of Null. -/
def detect_data_type : Json → DataType
  | .jfloat _ => .float64
  | .jint _ => .int64
  | .jstr _ => .utf8
  | .jbool _ => .boolean
  | .jarr elems =>
    match elems.toList.head? with
    | some (.jfloat _) => .list .float64
    | some (.jint _) => .list .int64
    | some (.jstr _) => .list .utf8
    | some (.jbool _) => .list .boolean
    | some _ => .list .nullT
    | none => .list .nullT
  | _ => .nullT

/-- One object's contribution to the field_types map: each (key, value)
pair replaces the key's entry with the conflict-resolved type. -/
def update_field_types (ft : String → Option DataType) : List (String × Json) → String → Option DataType
  | [] => ft
  | (k, v) :: rest =>
    update_field_types
      (fun key => if key = k then some (resolve_data_type_conflict (ft k) (detect_data_type v)) else ft key)
      rest

/-- The full inference scan over the record sequence (non-objects are
skipped by the as_object filter), read back per field name. -/
def infer_field_types (vals : List Json) : String → Option DataType :=
  (vals.filterMap Json.as_object).foldl update_field_types (fun _ => none)

/-- The detected types of a field's occurrences, in scan order. -/
def field_occurrences (vals : List Json) (k : String) : List DataType :=
  ((vals.filterMap Json.as_object).flatMap (fun obj => obj.filter (fun kv => kv.1 == k))).map
    (fun kv => detect_data_type kv.2)

/-- A scalar element of a list column (the list builders in the source
only wrap the four scalar builders). -/
inductive ScalarCell where
  | sInt (n : Int)
  | sFloat (q : Rat)
  | sStr (s : String)
  | sBool (b : Bool)
  deriving DecidableEq

/-- One materialized column entry.  `cList valid elems`: the builder
appends a validity bit and the element run; a missing or non-array
value appends `valid = false` with no elements. -/
inductive Cell where
  | cInt (n : Int)
  | cFloat (q : Rat)
  | cStr (s : String)
  | cBool (b : Bool)
  | cList (valid : Bool) (elems : List ScalarCell)
  deriving DecidableEq

/-- Element coercion inside a list builder, per element type. -/
def coerceListItem (item : DataType) (v : Json) : ScalarCell :=
  match item with
  | .utf8 => .sStr ((v.as_str).getD "")
  | .int64 => .sInt ((v.as_i64).getD 0)
  | .float64 => .sFloat ((v.as_f64).getD 0)
  | _ => .sBool ((v.as_bool).getD false)

/-- Materialize the column for one field of the detected schema, per
the array-construction arm of json_to_arrow: scalars fall back to the
typed default when the field is missing or has the wrong runtime type;
lists append an invalid empty entry; Null-typed columns (top-level or
as list element) are rejected with the source's error text. -/
def build_column (t : DataType) (vals : List Json) (k : String) : Except String (List Cell) :=
  match t with
  | .int64 => .ok (vals.map (fun v => .cInt (((json_get v k).bind Json.as_i64).getD 0)))
  | .float64 => .ok (vals.map (fun v => .cFloat (((json_get v k).bind Json.as_f64).getD 0)))
  | .utf8 => .ok (vals.map (fun v => .cStr (((json_get v k).bind Json.as_str).getD "")))
  | .boolean => .ok (vals.map (fun v => .cBool (((json_get v k).bind Json.as_bool).getD false)))
  | .list item =>
    match item with
    | .utf8 | .int64 | .float64 | .boolean =>
      .ok (vals.map (fun v =>
        match json_get v k with
        | some (.jarr arr) => .cList true (arr.toList.map (coerceListItem item))
        | _ => .cList false []))
    | _ => .error ("Unsupported inner data type for ListArray: " ++ k)
  | .nullT => .error ("Unsupported data type for field " ++ k)

/-- The field names of the detected schema, in first-occurrence order
(the source holds them in a HashMap whose iteration order is
unspecified; no claim depends on the order). -/
def collect_keys (vals : List Json) : List String :=
  (vals.filterMap Json.as_object).foldl
    (fun acc obj => obj.foldl (fun acc kv => if acc.contains kv.1 then acc else acc ++ [kv.1]) acc)
    []

/-- The `collect::<Result<Vec<_>, _>>` pattern: the first failing field
aborts the whole conversion. -/
def mapExcept {α β : Type} (f : α → Except String β) : List α → Except String (List β)
  | [] => .ok []
  | x :: rest =>
    match f x with
    | .error e => .error e
    | .ok y =>
      match mapExcept f rest with
      | .error e => .error e
      | .ok ys => .ok (y :: ys)

/-- json_to_arrow: empty input is rejected with "No data to write";
otherwise every detected field is materialized into a typed column. -/
def json_to_arrow (vals : List Json) : Except String (List (String × DataType × List Cell)) :=
  if vals.isEmpty then .error "No data to write"
  else
    mapExcept (fun k =>
      match infer_field_types vals k with
      | some t => (build_column t vals k).map (fun col => (k, t, col))
      | none => .error ("Unsupported data type for field " ++ k))
      (collect_keys vals)

/-- Packing a plain list back into an array's element sequence. -/
def JsonList.ofList : List Json → JsonList
  | [] => .nil
  | x :: rest => .cons x (JsonList.ofList rest)

/-- scalar read-back of record_batches_to_json. -/
def scalarToJson : ScalarCell → Json
  | .sInt n => .jint n
  | .sFloat q => .jfloat q
  | .sStr s => .jstr s
  | .sBool b => .jbool b

/-- Columnar → JSON read-back of one cell (record_batches_to_json):
list entries are read through their offsets, ignoring validity, so an
invalid entry reads back as the empty array. -/
def cellToJson : Cell → Json
  | .cInt n => .jint n
  | .cFloat q => .jfloat q
  | .cStr s => .jstr s
  | .cBool b => .jbool b
  | .cList _ elems => .jarr (JsonList.ofList (elems.map scalarToJson))

/-- Modelled from the spec: the typed default a record with a missing
field receives (0 / 0.0 / "" / false / empty list), for comparison with
the cells the source materializes. -/
def specTypedDefault : DataType → Json
  | .int64 => .jint 0
  | .float64 => .jfloat 0
  | .utf8 => .jstr ""
  | .boolean => .jbool false
  | .list _ => .jarr .nil
  | .nullT => .null

/-! ## Catalog schema validation and the partition writer
(db_manager.rs: validate_data_against_schema, validate_field_type,
insert; helpers.rs: get_unique_fields) -/

/-- validate_field_type's runtime type name of a JSON value. -/
def get_value_type : Json → String
  | .jfloat _ => "float"
  | .jint _ => "int"
  | .jstr _ => "string"
  | .jbool _ => "bool"
  | .jarr _ => "array"
  | _ => "unknown"

/-- validate_field_type: the declared type string is split on the pipe
and the runtime type must be one of the accepted alternatives. -/
def validate_field_type (fieldName fieldType : String) (v : Json) : Except String Unit :=
  let actual := get_value_type v
  if (splitOnChar '|' fieldType).contains actual then .ok ()
  else
    .error ("Type mismatch for field \x27" ++ fieldName ++ "\x27: expected \x27" ++ fieldType ++
      "\x27, but got \x27" ++ actual ++ "\x27.")

/-- The unexpected-field pass of validate_data_against_schema: every
key of the record must appear in the schema. -/
def check_unknown_fields (schemaObj : List (String × Json)) : List (String × Json) → Except String Unit
  | [] => .ok ()
  | (k, _) :: rest =>
    if (assocLookup schemaObj k).isSome then check_unknown_fields schemaObj rest
    else .error ("Unexpected field: \x27" ++ k ++ "\x27 is not defined in the schema!")

/-- The per-schema-field pass: required fields must be present; present
fields must satisfy the declared type. -/
def check_schema_fields (dataObj : List (String × Json)) : List (String × Json) → Except String Unit
  | [] => .ok ()
  | (fieldName, fieldRules) :: rest =>
    match fieldRules.as_object with
    | none => .error ("Invalid validation rules for field \x27" ++ fieldName ++ "\x27")
    | some rulesObj =>
      let requiredF := (((assocLookup rulesObj "required").bind Json.as_bool).getD false)
      if requiredF && (assocLookup dataObj fieldName).isNone then
        .error ("Missing required field \x27" ++ fieldName ++ "\x27")
      else
        match assocLookup dataObj fieldName with
        | some v =>
          match validate_field_type fieldName (((assocLookup rulesObj "type").bind Json.as_str).getD "") v with
          | .error e => .error e
          | .ok _ => check_schema_fields dataObj rest
        | none => check_schema_fields dataObj rest

/-- validate_data_against_schema: a record is checked for unknown
fields, then each schema field for requiredness and type. -/
def validate_data_against_schema (schema : Json) (jsonData : Json) : Except String Unit :=
  match schema.as_object with
  | none => .error "Schema should be a JSON object"
  | some schemaObj =>
    match jsonData.as_object with
    | none => .error "Data should be a JSON object"
    | some dataObj =>
      match check_unknown_fields schemaObj dataObj with
      | .error e => .error e
      | .ok _ => check_schema_fields dataObj schemaObj

/-- insert's validation loop over the parsed records (first failure
aborts). -/
def validate_records (schema : Json) : List Json → Except String Unit
  | [] => .ok ()
  | r :: rest =>
    match validate_data_against_schema schema r with
    | .error e => .error e
    | .ok _ => validate_records schema rest

/-- get_unique_fields: the schema fields whose rules carry
`unique: true` (as_bool of the stored value must be Some true). -/
def get_unique_fields (schema : Json) : List String :=
  match schema.as_object with
  | some props =>
    (props.filter (fun kv => ((json_get kv.2 "unique").bind Json.as_bool) == some true)).map Prod.fst
  | none => []

/-- The '-'-joined unique-key tuple of a record: each unique field's
value is serialized with Value::to_string, a missing field contributing
the empty string. -/
def make_unique_key (uniqueFields : List String) (record : Json) : String :=
  String.intercalate "-" (uniqueFields.map (fun f => ((json_get record f).map Json.serialize).getD ""))

/-- Insert-or-replace into the deduplication map, keyed by the
unique-key string (the source's HashMap<String, Value>). -/
def upsert : List (String × Json) → String → Json → List (String × Json)
  | [], k, v => [(k, v)]
  | (k', v') :: rest, k, v =>
    if k' = k then (k', v) :: rest else (k', v') :: upsert rest k v

/-- The deduplication pass of insert: every record is inserted into the
map under its key tuple, later records replacing earlier ones; the map
values become the file's record set (the source's HashMap iteration
order is unspecified; first-insertion order is used here). -/
def dedup_records (uniqueFields : List String) (records : List Json) : List Json :=
  (records.foldl (fun m r => upsert m (make_unique_key uniqueFields r) r) []).map Prod.snd

/-- The partition writer's effect on the day file's record content,
after metadata resolution found the table (db_manager.rs insert).  The
validation stage and the codec run on the fresh records precede every
file operation; when the day file exists its rows are read back,
concatenated with the new records, deduplicated when the schema has
unique fields, and re-encoded; otherwise the new records are written
directly, with no deduplication. -/
def insert_day_records (schema : Json) (existing : Option (List Json)) (records : List Json) :
    Except String (List Json) :=
  match validate_records schema records with
  | .error e => .error e
  | .ok _ =>
    match json_to_arrow records with
    | .error e => .error e
    | .ok _ =>
      match existing with
      | some old =>
        let combined := old ++ records
        let uniqueFields := get_unique_fields schema
        let deduped := if uniqueFields.isEmpty then combined else dedup_records uniqueFields combined
        match json_to_arrow deduped with
        | .error e => .error e
        | .ok _ => .ok deduped
      | none => .ok records

/-- insert as a transition on the day file's state (`none` = the file
is absent): every error path above returns before fs::File::create is
reached, so the file is left exactly as found. -/
def insert_post (schema : Json) (existing : Option (List Json)) (records : List Json) :
    Option String × Option (List Json) :=
  match insert_day_records schema existing records with
  | .ok newContent => (none, some newContent)
  | .error e => (some e, existing)

/-! ## Path Planner (helpers.rs, generate_paths) -/

/-- A chrono NaiveDate as its calendar components (the claims only use
common-era dates, for which the %Y rendering below agrees with
chrono). -/
structure Date where
  year : Int
  month : Nat
  day : Nat
  deriving DecidableEq

/-- Gregorian leap-year rule. -/
def isLeapYear (y : Int) : Bool := y % 4 = 0 && (y % 100 ≠ 0 || y % 400 = 0)

/-- Length of a calendar month (0 for an out-of-range month number). -/
def daysInMonth (y : Int) (m : Nat) : Nat :=
  match m with
  | 1 => 31
  | 2 => if isLeapYear y then 29 else 28
  | 3 => 31
  | 4 => 30
  | 5 => 31
  | 6 => 30
  | 7 => 31
  | 8 => 31
  | 9 => 30
  | 10 => 31
  | 11 => 30
  | 12 => 31
  | _ => 0

/-- Calendar order on dates (the planner's `current_date <= end_date`). -/
def Date.leB (a b : Date) : Bool :=
  a.year < b.year || (a.year = b.year && (a.month < b.month || (a.month = b.month && a.day ≤ b.day)))

/-- NaiveDate::succ_opt on a valid date. -/
def Date.succ (d : Date) : Date :=
  if d.day < daysInMonth d.year d.month then ⟨d.year, d.month, d.day + 1⟩
  else if d.month < 12 then ⟨d.year, d.month + 1, 1⟩
  else ⟨d.year + 1, 1, 1⟩

/-- The planner's month advance:
`with_month(month % 12 + 1).unwrap_or_else(from_ymd(year + 1, 1, 1))`.
with_month keeps the day, so it fails (and the fallback jumps to
January 1 of the next year) whenever the day exceeds the target month's
length. -/
def Date.advanceMonth (d : Date) : Date :=
  let nm := d.month % 12 + 1
  if d.day ≤ daysInMonth d.year nm then ⟨d.year, nm, d.day⟩ else ⟨d.year + 1, 1, 1⟩

/-- %Y-%m. -/
def formatYM (d : Date) : String := padNat 4 d.year.toNat ++ "-" ++ padNat 2 d.month

/-- %Y-%m-%d. -/
def formatYMD (d : Date) : String := formatYM d ++ "-" ++ padNat 2 d.day

inductive Granularity where
  | Month
  | Day
  deriving DecidableEq

/-- One emitted partition path; only Month granularity honours the s3
scheme prefix. -/
def genPath (gran : Granularity) (isS3 : Bool) (baseDir fileName : String) (d : Date) : String :=
  match gran with
  | .Month => (if isS3 then "s3://" else "") ++ baseDir ++ "/" ++ fileName ++ "_" ++ formatYM d ++ ".parquet"
  | .Day => baseDir ++ "/" ++ fileName ++ "_" ++ formatYMD d ++ ".parquet"

/-- The loop's date advance per granularity. -/
def nextDate (gran : Granularity) (d : Date) : Date :=
  match gran with
  | .Month => d.advanceMonth
  | .Day => d.succ

/-- The planner's while loop, run on a fuel budget because the source
loop does not terminate for every Month-granularity input; `none`
means the fuel ran out while the loop condition still held. -/
def genPathsLoop (gran : Granularity) (isS3 : Bool) (baseDir fileName : String) (endDate : Date) :
    Nat → Date → Option (List String)
  | 0, cur => if cur.leB endDate then none else some []
  | fuel + 1, cur =>
    if cur.leB endDate then
      (genPathsLoop gran isS3 baseDir fileName endDate fuel (nextDate gran cur)).map
        (fun rest => genPath gran isS3 baseDir fileName cur :: rest)
    else some []

/-- generate_paths with the fuel made explicit. -/
def generate_paths (baseDir fileName : String) (startDate endDate : Date) (gran : Granularity)
    (isS3 : Bool) (fuel : Nat) : Option (List String) :=
  genPathsLoop gran isS3 baseDir fileName endDate fuel startDate

/-! ## Query Engine (helpers.rs extract_table_name; db_manager.rs query;
mod.rs query envelope) -/

/-- A regex word character (the claims use ASCII identifiers, for which
this agrees with the regex crate). -/
def isWordChar (c : Char) : Bool := c.isAlphanum || c = '_'

/-- Try the pattern (FROM or JOIN, then whitespace, then an optional
backtick or double quote, then a captured identifier) anchored at the
head of the character list. -/
def tryMatchAt (cs : List Char) : Option String :=
  let afterKeyword : Option (List Char) :=
    match cs with
    | 'F' :: 'R' :: 'O' :: 'M' :: rest => some rest
    | 'J' :: 'O' :: 'I' :: 'N' :: rest => some rest
    | _ => none
  match afterKeyword with
  | none => none
  | some rest =>
    let (ws, rest1) := rest.span (fun c => c.isWhitespace)
    if ws.isEmpty then none
    else
      let rest2 :=
        match rest1 with
        | c :: tl => if c = Char.ofNat 96 || c = '"' then tl else rest1
        | [] => rest1
      let (word, _) := rest2.span isWordChar
      if word.isEmpty then none else some (String.mk word)

/-- Leftmost match of the extract_table_name pattern. -/
def findTableName : List Char → Option String
  | [] => none
  | c :: rest =>
    match tryMatchAt (c :: rest) with
    | some w => some w
    | none => findTableName rest

/-- extract_table_name: the first FROM/JOIN identifier of the SQL text,
or the empty string when the pattern never matches. -/
def extract_table_name (sql : String) : String :=
  (findTableName sql.data).getD ""

/-- The query rewrite of step 6: a plain global substring replacement
of the extracted table name by "combined_table"
(`sql_query.replace(file_name, "combined_table")`). -/
def adjusted_sql_query (sql : String) : String :=
  replaceChars sql (extract_table_name sql) "combined_table"

/-- The partition registration loop of query: each existing day path
that the engine accepts is registered as `<table>_<i>`; missing files
and failed registrations are skipped. -/
def register_tables (diskHas regOk : String → Bool) (fileName : String) :
    Nat → List String → List String
  | _, [] => []
  | i, p :: rest =>
    if diskHas p && regOk p then
      (fileName ++ "_" ++ toString i) :: register_tables diskHas regOk fileName (i + 1) rest
    else register_tables diskHas regOk fileName (i + 1) rest

/-- query up to the no-partition check: the table name is extracted
from the SQL, the day path list is generated under
`<data>/<db>/<table>`, existing paths are registered, and an empty
registration set aborts with the "No valid tables" plan error.  What
follows (union-all, rewrite, execution) belongs to the black-box SQL
engine. -/
def query_partitions (diskHas regOk : String → Bool) (dataPath dbName sql : String)
    (startDate endDate : Date) (fuel : Nat) : Except String (List String) :=
  let fileName := extract_table_name sql
  let baseDir := dataPath ++ "/" ++ dbName ++ "/" ++ fileName
  match generate_paths baseDir fileName startDate endDate .Day false fuel with
  | none => .error "model fuel exhausted before the day loop finished"
  | some fileList =>
    let tableNames := register_tables diskHas regOk fileName 0 fileList
    if tableNames.isEmpty then .error "No valid tables found to query."
    else .ok tableNames

/-- The uniform result envelope (mod.rs, TimonResult). -/
structure TimonResult where
  status : Nat
  message : String
  json_value : Option Json

/-- The public query wrapper of mod.rs: success wraps the engine's rows
(a black-box input here) with status 200, failure wraps the error text
with status 400 and no payload. -/
def query_api (engineRows : Json) (diskHas regOk : String → Bool) (dataPath dbName sql : String)
    (startDate endDate : Date) (fuel : Nat) : TimonResult :=
  match query_partitions diskHas regOk dataPath dbName sql startDate endDate fuel with
  | .ok _ =>
    { status := 200,
      message := "query data with success from \x27" ++ dbName ++ "\x27 with \x27" ++ sql ++ "\x27",
      json_value := some engineRows }
  | .error e => { status := 400, message := e, json_value := none }

/-! ## Monthly sink (cloud_sync.rs sink_monthly_parquet;
datafusion_query/helpers.rs extract_year_month) -/

/-- The `\d{4}-\d{2}` pattern anchored at the head of the list. -/
def ymAt : List Char → Option (List Char)
  | y1 :: y2 :: y3 :: y4 :: h :: m1 :: m2 :: _ =>
    if y1.isDigit && y2.isDigit && y3.isDigit && y4.isDigit && h = '-' && m1.isDigit && m2.isDigit then
      some [y1, y2, y3, y4, h, m1, m2]
    else none
  | _ => none

/-- Leftmost `\d{4}-\d{2}` match. -/
def findYM : List Char → Option (List Char)
  | [] => none
  | c :: rest =>
    match ymAt (c :: rest) with
    | some m => some m
    | none => findYM rest

/-- extract_year_month: the first YYYY-MM-shaped substring of the whole
file path (its doc comment promises the filename's year-month). -/
def extract_year_month (filePath : String) : Option String :=
  (findYM filePath.data).map (fun cs => String.mk cs)

/-- The month-grouping capture `(\d{4}-\d{2})-\d{2}\.parquet$` applied
to a file name: defined iff the name ends in a day stamp plus the
parquet extension. -/
def dayStamp (name : String) : Option String :=
  let cs := name.data
  if cs.length < 18 then none
  else
    match cs.drop (cs.length - 18) with
    | [y1, y2, y3, y4, h1, m1, m2, h2, d1, d2, dot, p1, p2, p3, p4, p5, p6, p7] =>
      if y1.isDigit && y2.isDigit && y3.isDigit && y4.isDigit && h1 = '-' && m1.isDigit &&
          m2.isDigit && h2 = '-' && d1.isDigit && d2.isDigit && dot = '.' && p1 = 'p' &&
          p2 = 'a' && p3 = 'r' && p4 = 'q' && p5 = 'u' && p6 = 'e' && p7 = 't' then
        some (String.mk [y1, y2, y3, y4, h1, m1, m2])
      else none
    | _ => none

/-- The local monthly aggregate's file name. -/
def merged_name (tableName month : String) : String :=
  tableName ++ "_" ++ month ++ ".parquet"

/-- The distinct month stamps of the day-shaped files, in
first-occurrence order (the source's HashMap grouping has unspecified
order). -/
def sink_group_months (files : List String) : List String :=
  files.foldl
    (fun acc f =>
      match dayStamp f with
      | some m => if acc.contains m then acc else acc ++ [m]
      | none => acc)
    []

/-- One step of the sink's eviction loop: a file whose extracted
year-month (over its full path) is strictly below the current month is
removed, together with that extracted month's local aggregate when
present. -/
def evict_step (dirPath tableName currentYM : String) (st : List String) (f : String) : List String :=
  match extract_year_month (dirPath ++ "/" ++ f) with
  | some ym =>
    if strLt ym currentYM then
      let st1 := st.erase f
      let merged := merged_name tableName ym
      if st1.contains merged then st1.erase merged else st1
    else st
  | none => st

/-- sink_monthly_parquet's effect on the table directory's file set
(upload to the object store is external): for each month group the
local aggregate is produced (copy or union-all merge — presence-wise,
the name appears), then the group's files run through the eviction
loop. -/
def sink_post_state (dirPath tableName currentYM : String) (state : List String) : List String :=
  let files := state.filter (fun n => strStartsWith n (tableName ++ "_"))
  (sink_group_months files).foldl
    (fun st m =>
      let merged := merged_name tableName m
      let st1 := if st.contains merged then st else st ++ [merged]
      (files.filter (fun f => dayStamp f == some m)).foldl (evict_step dirPath tableName currentYM) st1)
    state

/-! ## Catalog initialization (mod.rs init_timon; db_manager.rs
DatabaseManager::new) -/

/-- The storage-root state the initializer touches: whether
`<storage>/data` exists, and the content of `<storage>/metadata.json`
(`none` = absent). -/
structure FsState where
  dataDir : Bool
  metadata : Option String
  deriving DecidableEq

/-- serde_json::to_string of the empty metadata document. -/
def initialMetadataString : String := "\x7b\"databases\":\x7b\x7d\x7d"

/-- The in-memory handle DatabaseManager::new builds. -/
structure DatabaseManager where
  data_path : String
  metadata_path : String
  metadata : String
  deriving DecidableEq

/-- DatabaseManager::new: create the data directory if missing, create
and seed metadata.json only if absent, then load it. -/
def db_manager_new (storagePath : String) (fs : FsState) : FsState × DatabaseManager :=
  let fs1 : FsState := { fs with dataDir := true }
  let fs2 : FsState := if fs1.metadata.isNone then { fs1 with metadata := some initialMetadataString } else fs1
  let loaded := fs2.metadata.getD initialMetadataString
  (fs2, { data_path := storagePath ++ "/data",
          metadata_path := storagePath ++ "/metadata.json",
          metadata := loaded })

/-- What one init_timon call leaves behind: the storage state, the
process-wide OnceLock handle, and the returned envelope. -/
structure InitOutcome where
  fs : FsState
  handle : Option DatabaseManager
  envelope : TimonResult

/-- init_timon: a DatabaseManager is always constructed (touching the
storage root as above); OnceLock::set installs it only when the handle
is still empty, otherwise the existing handle survives and the call
reports "already initialized" with status 400. -/
def init_timon (storagePath : String) (fs : FsState) (handle : Option DatabaseManager) : InitOutcome :=
  let (fs2, dbm) := db_manager_new storagePath fs
  match handle with
  | none =>
    { fs := fs2, handle := some dbm,
      envelope := { status := 200, message := "DatabaseManager initialized successfully", json_value := none } }
  | some h =>
    { fs := fs2, handle := some h,
      envelope := { status := 400, message := "DatabaseManager already initialized", json_value := none } }

/-! ## Concrete instances used by the claims -/

/-- A schema with a unique string key `k` and an int field `t`. -/
def c1Schema : Json :=
  .jobj (.cons "k"
    (.jobj (.cons "type" (.jstr "string") (.cons "required" (.jbool true) (.cons "unique" (.jbool true) .nil))))
    (.cons "t" (.jobj (.cons "type" (.jstr "int") .nil)) .nil))

/-- `\x7b"k":"a","t":1\x7d`. -/
def c1Rec1 : Json := .jobj (.cons "k" (.jstr "a") (.cons "t" (.jint 1) .nil))

/-- `\x7b"k":"a","t":2\x7d`. -/
def c1Rec2 : Json := .jobj (.cons "k" (.jstr "a") (.cons "t" (.jint 2) .nil))

/-- A schema with a single int field `t`. -/
def c3Schema : Json := .jobj (.cons "t" (.jobj (.cons "type" (.jstr "int") .nil)) .nil)

/-- `\x7b"unknown":1\x7d` — an unknown field for c3Schema. -/
def c3BadRecord : Json := .jobj (.cons "unknown" (.jint 1) .nil)

/-- `\x7b"t":5\x7d` — a valid stored record. -/
def c3Stored : Json := .jobj (.cons "t" (.jint 5) .nil)

/-- `\x7b"x":1\x7d`. -/
def c4Rec1 : Json := .jobj (.cons "x" (.jint 1) .nil)

/-- `\x7b"x":1.5\x7d`. -/
def c4Rec2 : Json := .jobj (.cons "x" (.jfloat (3 / 2)) .nil)

/-- The empty record `\x7b\x7d`. -/
def c5RecEmpty : Json := .jobj .nil

/-- A query whose table name also occurs inside a longer identifier and
inside a string literal. -/
def c9Sql : String := "SELECT tab_id FROM tab WHERE note = \x27tab\x27"

/-! ## Theorems -/

/-- Helper for C2: with Month granularity, any current date of the form
2024-m-15 (m a real month) stays inside the year 2024 forever — the
December step wraps back to January of the same year — so the loop
never terminates for the range ending 2025-01-20. -/
theorem genPathsLoop_dec_cycle (fuel m : Nat) (h1 : 1 ≤ m) (h2 : m ≤ 12) :
    genPathsLoop .Month false "b" "t" ⟨2025, 1, 20⟩ fuel ⟨2024, m, 15⟩ = none := by
  induction fuel generalizing m with
  | zero =>
    have hle : Date.leB ⟨2024, m, 15⟩ ⟨2025, 1, 20⟩ = true := by simp [Date.leB]
    simp [genPathsLoop, hle]
  | succ n ih =>
    have hle : Date.leB ⟨2024, m, 15⟩ ⟨2025, 1, 20⟩ = true := by simp [Date.leB]
    have h12 : m % 12 < 12 := Nat.mod_lt _ (by omega)
    have hd : 15 ≤ daysInMonth 2024 (m % 12 + 1) := by
      generalize hg : m % 12 = r at h12
      interval_cases r <;> decide
    have hadv : nextDate .Month ⟨2024, m, 15⟩ = ⟨2024, m % 12 + 1, 15⟩ := by
      simp [nextDate, Date.advanceMonth, hd]
    have ihm := ih (m % 12 + 1) (by omega) (by omega)
    simp [genPathsLoop, hle, hadv, ihm]

/-- C2: on the input start=2024-01-30, end=2024-02-02 the planner's Day
granularity does produce the four claimed paths in order, but Month
granularity produces only the 2024-01 entry — the invalid with_month
fallback jumps to 2025-01-01 — although the first day of 2024-02 falls
in the range; and from a mid-month December start the Month loop never
terminates at any fuel. -/
theorem C2_path_planner_eval :
    generate_paths "b" "t" ⟨2024, 1, 30⟩ ⟨2024, 2, 2⟩ .Day false 10 =
      some ["b/t_2024-01-30.parquet", "b/t_2024-01-31.parquet",
        "b/t_2024-02-01.parquet", "b/t_2024-02-02.parquet"] ∧
    generate_paths "b" "t" ⟨2024, 1, 30⟩ ⟨2024, 2, 2⟩ .Month false 10 =
      some ["b/t_2024-01.parquet"] ∧
    (Date.leB ⟨2024, 1, 30⟩ ⟨2024, 2, 1⟩ && Date.leB ⟨2024, 2, 1⟩ ⟨2024, 2, 2⟩) = true ∧
    ∀ fuel, generate_paths "b" "t" ⟨2024, 12, 15⟩ ⟨2025, 1, 20⟩ .Month false fuel = none :=
  ⟨rfl, rfl, rfl, fun fuel => genPathsLoop_dec_cycle fuel 12 (by omega) (by omega)⟩

/-- C7: the sink's eviction condition reads the first YYYY-MM-shaped
substring of the full path, not the file's own stamp.  Under the
database directory `9999-12` a day file stamped 2020-01 — strictly
older than the current month 2025-10 — is retained, while under a
digit-free directory the same state evicts it together with its
monthly aggregate, and a current-month day file is retained. -/
theorem C7_eviction_eval :
    extract_year_month "/data/9999-12/t/t_2020-01-15.parquet" = some "9999-12" ∧
    strLt "2020-01" "2025-10" = true ∧
    sink_post_state "/data/9999-12/t" "t" "2025-10" ["t_2020-01-15.parquet"] =
      ["t_2020-01-15.parquet", "t_2020-01.parquet"] ∧
    sink_post_state "/data/db/t" "t" "2025-10" ["t_2020-01-15.parquet"] = [] ∧
    sink_post_state "/data/db/t" "t" "2025-10" ["t_2025-10-03.parquet"] =
      ["t_2025-10-03.parquet", "t_2025-10.parquet"] :=
  ⟨rfl, rfl, rfl, rfl, rfl⟩

/-- C8: a second init against the same storage path returns the
"already initialized" envelope with status 400 and changes nothing:
the storage state (data directory, metadata.json) and the process-wide
handle established by the first init survive unmodified. -/
theorem C8_second_init_is_harmless (p : String) (fs0 : FsState) :
    (init_timon p fs0 none).envelope.status = 200 ∧
    init_timon p (init_timon p fs0 none).fs (init_timon p fs0 none).handle =
      { fs := (init_timon p fs0 none).fs,
        handle := (init_timon p fs0 none).handle,
        envelope :=
          { status := 400, message := "DatabaseManager already initialized", json_value := none } } := by
  obtain ⟨d, m⟩ := fs0
  cases m <;> exact ⟨rfl, rfl⟩

/-- C9: the query rewrite is a raw global substring replacement — in
the sample query the extracted table name `tab` is replaced inside the
column identifier `tab_id` and inside the string literal `'tab'` as
well as at its real table reference. -/
theorem C9_rewrite_is_global_substring_replacement :
    extract_table_name c9Sql = "tab" ∧
    adjusted_sql_query c9Sql =
      "SELECT combined_table_id FROM combined_table WHERE note = \x27combined_table\x27" :=
  ⟨rfl, rfl⟩

/-- C10: inserting the empty record array into an existing table fails
with "No data to write" — json_to_arrow rejects the empty batch before
any file is created or rewritten, so the day file state is returned
untouched. -/
theorem C10_empty_insert_rejected (schema : Json) (existing : Option (List Json)) :
    insert_post schema existing [] = (some "No data to write", existing) := rfl

/-- Helper for C3: the validation loop fails as soon as some record in
the batch fails validation. -/
theorem validate_records_error_of_mem (schema : Json) (records : List Json)
    (h : ∃ r ∈ records, ∃ e, validate_data_against_schema schema r = .error e) :
    ∃ e, validate_records schema records = .error e := by
  induction records with
  | nil => simp at h
  | cons a rest ih =>
    obtain ⟨r, hr, e, he⟩ := h
    cases hv : validate_data_against_schema schema a with
    | error e1 => exact ⟨e1, by simp [validate_records, hv]⟩
    | ok u =>
      rcases List.mem_cons.mp hr with h1 | h1
      · subst h1; rw [hv] at he; cases he
      · obtain ⟨e2, h2⟩ := ih ⟨r, h1, e, he⟩
        exact ⟨e2, by simp [validate_records, hv, h2]⟩

/-- C3: when at least one record of an insert batch fails schema
validation (unknown field, missing required field or type mismatch),
insert returns an error, and the day file state is returned exactly as
found: the validation loop precedes every file operation. -/
theorem C3_invalid_record_aborts_insert (schema : Json) (existing : Option (List Json))
    (records : List Json)
    (h : ∃ r ∈ records, ∃ e, validate_data_against_schema schema r = .error e) :
    ∃ msg, insert_post schema existing records = (some msg, existing) := by
  obtain ⟨e, he⟩ := validate_records_error_of_mem schema records h
  exact ⟨e, by simp [insert_post, insert_day_records, he]⟩

/-- Witness for C3 at a concrete input: a record with the unknown field
`unknown` aborts the insert and the stored day file survives. -/
theorem C3_invalid_record_aborts_insert_witness :
    (∃ r ∈ [c3BadRecord], ∃ e, validate_data_against_schema c3Schema r = .error e) ∧
    ∃ msg, insert_post c3Schema (some [c3Stored]) [c3BadRecord] = (some msg, some [c3Stored]) := by
  have h : ∃ r ∈ [c3BadRecord], ∃ e, validate_data_against_schema c3Schema r = .error e :=
    ⟨c3BadRecord, List.mem_singleton.mpr rfl,
      "Unexpected field: \x27unknown\x27 is not defined in the schema!", rfl⟩
  exact ⟨h, C3_invalid_record_aborts_insert c3Schema (some [c3Stored]) [c3BadRecord] h⟩

/-- Helper for C6: when no path passes the existence and registration
checks, the registration loop yields no table names. -/
theorem register_tables_all_skipped (diskHas regOk : String → Bool) (fileName : String)
    (i : Nat) (ps : List String) (h : ∀ p ∈ ps, ¬(diskHas p = true ∧ regOk p = true)) :
    register_tables diskHas regOk fileName i ps = [] := by
  induction ps generalizing i with
  | nil => rfl
  | cons p rest ih =>
    have hp : (diskHas p && regOk p) = false := by
      have := h p (List.mem_cons_self p rest)
      cases hd : diskHas p <;> cases hr : regOk p <;> simp_all
    simp only [register_tables, hp, Bool.false_eq_true, if_false]
    exact ih (i + 1) (fun q hq => h q (List.mem_cons_of_mem _ hq))

/-- C6: a local query whose generated day paths all fail the existence
or registration check returns the plan error "No valid tables found to
query." — an error value, not a panic — and the public envelope wraps
it with status 400 and no payload. -/
theorem C6_no_partitions_is_plan_error_400 (engineRows : Json) (diskHas regOk : String → Bool)
    (dataPath dbName sql : String) (startDate endDate : Date) (fuel : Nat) (fileList : List String)
    (hgen : generate_paths (dataPath ++ "/" ++ dbName ++ "/" ++ extract_table_name sql)
      (extract_table_name sql) startDate endDate .Day false fuel = some fileList)
    (hall : ∀ p ∈ fileList, ¬(diskHas p = true ∧ regOk p = true)) :
    query_api engineRows diskHas regOk dataPath dbName sql startDate endDate fuel =
      { status := 400, message := "No valid tables found to query.", json_value := none } := by
  have hreg := register_tables_all_skipped diskHas regOk (extract_table_name sql) 0 fileList hall
  simp [query_api, query_partitions, hgen, hreg]

/-- Witness for C6 at a concrete input: one generated day path, absent
from disk, yields the 400 envelope with the plan error. -/
theorem C6_no_partitions_is_plan_error_400_witness :
    generate_paths ("/s/data" ++ "/" ++ "d" ++ "/" ++ extract_table_name "SELECT * FROM t")
      (extract_table_name "SELECT * FROM t") ⟨2024, 1, 1⟩ ⟨2024, 1, 1⟩ .Day false 2 =
      some ["/s/data/d/t/t_2024-01-01.parquet"] ∧
    query_api .null (fun _ => false) (fun _ => true) "/s/data" "d" "SELECT * FROM t"
      ⟨2024, 1, 1⟩ ⟨2024, 1, 1⟩ 2 =
      { status := 400, message := "No valid tables found to query.", json_value := none } := by
  have hgen : generate_paths ("/s/data" ++ "/" ++ "d" ++ "/" ++ extract_table_name "SELECT * FROM t")
      (extract_table_name "SELECT * FROM t") ⟨2024, 1, 1⟩ ⟨2024, 1, 1⟩ .Day false 2 =
      some ["/s/data/d/t/t_2024-01-01.parquet"] := rfl
  have hall : ∀ p ∈ ["/s/data/d/t/t_2024-01-01.parquet"],
      ¬((fun (_ : String) => false) p = true ∧ (fun (_ : String) => true) p = true) := by
    intro p _
    simp
  exact ⟨hgen, C6_no_partitions_is_plan_error_400 .null (fun _ => false) (fun _ => true)
    "/s/data" "d" "SELECT * FROM t" ⟨2024, 1, 1⟩ ⟨2024, 1, 1⟩ 2
    ["/s/data/d/t/t_2024-01-01.parquet"] hgen hall⟩

/-- Helper for C4: one object's contribution to the inference map is
the conflict-resolution fold over its occurrences of the field. -/
theorem update_field_types_spec (obj : List (String × Json)) (ft : String → Option DataType)
    (k : String) :
    update_field_types ft obj k =
      ((obj.filter (fun kv => kv.1 == k)).map (fun kv => detect_data_type kv.2)).foldl
        (fun acc t => some (resolve_data_type_conflict acc t)) (ft k) := by
  induction obj generalizing ft with
  | nil => rfl
  | cons kv rest ih =>
    obtain ⟨k1, v⟩ := kv
    by_cases h : k1 = k
    · subst h
      simp only [update_field_types]
      rw [ih]
      simp [List.filter_cons]
    · simp only [update_field_types]
      rw [ih]
      simp [List.filter_cons, h, Ne.symm h]

/-- Helper for C4: the detected column type of every field is the
conflict-resolution fold over all of the field's occurrences in scan
order. -/
theorem infer_field_types_spec (vals : List Json) (k : String) :
    infer_field_types vals k =
      (field_occurrences vals k).foldl (fun acc t => some (resolve_data_type_conflict acc t)) none := by
  suffices h : ∀ (objs : List (List (String × Json))) (ft : String → Option DataType),
      (objs.foldl update_field_types ft) k =
        ((objs.flatMap (fun obj => obj.filter (fun kv => kv.1 == k))).map
          (fun kv => detect_data_type kv.2)).foldl
          (fun acc t => some (resolve_data_type_conflict acc t)) (ft k) by
    exact h (vals.filterMap Json.as_object) (fun _ => none)
  intro objs
  induction objs with
  | nil => intro ft; rfl
  | cons o os ih =>
    intro ft
    simp only [List.foldl_cons, List.flatMap_cons, List.map_append, List.foldl_append]
    rw [ih, update_field_types_spec]

/-- C4: the inference scan's promotion rule — Int64 and Float64 join to
Float64 in either encounter order, equal types are kept, any other
conflicting pair resolves to the last-seen type — and every field's
column type is exactly the fold of this rule over the field's
occurrences; in particular \x5b\x7bx:1\x7d,\x7bx:1.5\x7d\x5d
materializes a Float64 column reading back as 1.0 and 1.5. -/
theorem C4_type_promotion :
    (∀ t, resolve_data_type_conflict none t = t) ∧
    resolve_data_type_conflict (some .int64) .float64 = .float64 ∧
    resolve_data_type_conflict (some .float64) .int64 = .float64 ∧
    (∀ t, resolve_data_type_conflict (some t) t = t) ∧
    (∀ c n, c ≠ n → ¬(c = .int64 ∧ n = .float64) → ¬(c = .float64 ∧ n = .int64) →
      resolve_data_type_conflict (some c) n = n) ∧
    (∀ vals k, infer_field_types vals k =
      (field_occurrences vals k).foldl (fun acc t => some (resolve_data_type_conflict acc t)) none) ∧
    json_to_arrow [c4Rec1, c4Rec2] =
      .ok [("x", .float64, [Cell.cFloat 1, Cell.cFloat (3 / 2)])] ∧
    cellToJson (Cell.cFloat 1) = .jfloat 1 ∧ cellToJson (Cell.cFloat (3 / 2)) = .jfloat (3 / 2) := by
  refine ⟨fun t => rfl, rfl, rfl, ?_, ?_, infer_field_types_spec, rfl, rfl, rfl⟩
  · intro t
    cases t <;> simp [resolve_data_type_conflict]
  · intro c n h1 h2 h3
    cases c <;> cases n <;> simp_all [resolve_data_type_conflict]

/-- Witness for C4 at a concrete input (discharging the conflict-rule
hypotheses at Utf8 versus Boolean). -/
theorem C4_type_promotion_witness :
    DataType.utf8 ≠ DataType.boolean ∧
    resolve_data_type_conflict (some .utf8) .boolean = .boolean :=
  ⟨by decide, C4_type_promotion.2.2.2.2.1 .utf8 .boolean (by decide) (by decide) (by decide)⟩

/-- Helper for C5: the collect pattern succeeds only when every element
succeeds, and each produced element comes from some input. -/
theorem mapExcept_ok_mem {α β : Type} (f : α → Except String β) (l : List α) (ys : List β)
    (h : mapExcept f l = .ok ys) : ∀ y ∈ ys, ∃ x ∈ l, f x = .ok y := by
  induction l generalizing ys with
  | nil =>
    simp only [mapExcept] at h
    injection h with h'
    subst h'
    simp
  | cons a rest ih =>
    cases hfa : f a with
    | error e => rw [mapExcept, hfa] at h; cases h
    | ok y0 =>
      cases hrest : mapExcept f rest with
      | error e => rw [mapExcept, hfa, hrest] at h; cases h
      | ok ys0 =>
        rw [mapExcept, hfa, hrest] at h
        injection h with h'
        subst h'
        intro y hy
        rcases List.mem_cons.mp hy with h1 | h1
        · exact ⟨a, List.mem_cons_self a rest, by rw [hfa, h1]⟩
        · obtain ⟨x, hx, hfx⟩ := ih ys0 hrest y h1
          exact ⟨x, List.mem_cons_of_mem _ hx, hfx⟩

/-- Helper for C5: every column of a successful json_to_arrow run is
the materialization of its field at its detected type. -/
theorem json_to_arrow_column (vals : List Json) (cols : List (String × DataType × List Cell))
    (k : String) (t : DataType) (col : List Cell)
    (hja : json_to_arrow vals = .ok cols) (hmem : (k, t, col) ∈ cols) :
    infer_field_types vals k = some t ∧ build_column t vals k = .ok col := by
  by_cases hne : vals.isEmpty
  · rw [json_to_arrow, if_pos hne] at hja; cases hja
  · rw [json_to_arrow, if_neg hne] at hja
    obtain ⟨x, _, hfx⟩ := mapExcept_ok_mem _ _ _ hja (k, t, col) hmem
    cases hit : infer_field_types vals x with
    | none => rw [hit] at hfx; cases hfx
    | some t0 =>
      rw [hit] at hfx
      have hfx2 : Except.map (fun col => (x, t0, col)) (build_column t0 vals x) =
          Except.ok (k, t, col) := hfx
      cases hbc : build_column t0 vals x with
      | error e => rw [hbc] at hfx2; cases hfx2
      | ok col0 =>
        rw [hbc] at hfx2
        simp only [Except.map] at hfx2
        injection hfx2 with h'
        injection h' with hx hrest
        injection hrest with ht hcol
        subst hx
        subst ht
        subst hcol
        exact ⟨hit, hbc⟩

/-- C5: a record in which an inferred field is absent materializes, for
that field's column, a cell that reads back as the typed default — 0,
0.0, the empty string, false, or the empty list. -/
theorem C5_missing_field_reads_back_default (vals : List Json)
    (cols : List (String × DataType × List Cell)) (k : String) (t : DataType)
    (col : List Cell) (i : Nat) (r : Json)
    (hja : json_to_arrow vals = .ok cols) (hmem : (k, t, col) ∈ cols)
    (hr : vals[i]? = some r) (hmiss : json_get r k = none) :
    ∃ c, col[i]? = some c ∧ cellToJson c = specTypedDefault t := by
  obtain ⟨_, hbc⟩ := json_to_arrow_column vals cols k t col hja hmem
  cases t with
  | int64 =>
    simp only [build_column] at hbc
    injection hbc with h'
    subst h'
    exact ⟨.cInt 0, by simp [List.getElem?_map, hr, hmiss], rfl⟩
  | float64 =>
    simp only [build_column] at hbc
    injection hbc with h'
    subst h'
    exact ⟨.cFloat 0, by simp [List.getElem?_map, hr, hmiss], rfl⟩
  | utf8 =>
    simp only [build_column] at hbc
    injection hbc with h'
    subst h'
    exact ⟨.cStr "", by simp [List.getElem?_map, hr, hmiss], rfl⟩
  | boolean =>
    simp only [build_column] at hbc
    injection hbc with h'
    subst h'
    exact ⟨.cBool false, by simp [List.getElem?_map, hr, hmiss], rfl⟩
  | nullT => cases hbc
  | list item =>
    cases item with
    | utf8 =>
      simp only [build_column] at hbc
      injection hbc with h'
      subst h'
      exact ⟨.cList false [], by simp [List.getElem?_map, hr, hmiss], rfl⟩
    | int64 =>
      simp only [build_column] at hbc
      injection hbc with h'
      subst h'
      exact ⟨.cList false [], by simp [List.getElem?_map, hr, hmiss], rfl⟩
    | float64 =>
      simp only [build_column] at hbc
      injection hbc with h'
      subst h'
      exact ⟨.cList false [], by simp [List.getElem?_map, hr, hmiss], rfl⟩
    | boolean =>
      simp only [build_column] at hbc
      injection hbc with h'
      subst h'
      exact ⟨.cList false [], by simp [List.getElem?_map, hr, hmiss], rfl⟩
    | nullT => cases hbc
    | list i2 => cases hbc

/-- Witness for C5 at a concrete input: in a two-record batch whose
second record lacks the Int64 field `x`, the second cell is 0. -/
theorem C5_missing_field_reads_back_default_witness :
    json_to_arrow [c4Rec1, c5RecEmpty] = .ok [("x", .int64, [Cell.cInt 1, Cell.cInt 0])] ∧
    ∃ c, [Cell.cInt 1, Cell.cInt 0][1]? = some c ∧ cellToJson c = specTypedDefault .int64 := by
  have hja : json_to_arrow [c4Rec1, c5RecEmpty] =
      .ok [("x", .int64, [Cell.cInt 1, Cell.cInt 0])] := rfl
  exact ⟨hja, C5_missing_field_reads_back_default [c4Rec1, c5RecEmpty] _ "x" .int64 _ 1 c5RecEmpty
    hja (List.mem_singleton.mpr rfl) rfl rfl⟩

/-- Helper for C1: lookup after an insert-or-replace. -/
theorem assocLookup_upsert (m : List (String × Json)) (k key : String) (v : Json) :
    assocLookup (upsert m k v) key = if key = k then some v else assocLookup m key := by
  induction m with
  | nil =>
    by_cases h : k = key
    · subst h; simp [upsert, assocLookup]
    · simp [upsert, assocLookup, h, Ne.symm h]
  | cons kv rest ih =>
    obtain ⟨k1, v1⟩ := kv
    simp only [upsert]
    by_cases h1 : k1 = k
    · subst h1
      by_cases h2 : k1 = key
      · subst h2; simp [assocLookup]
      · simp [assocLookup, h2, Ne.symm h2]
    · rw [if_neg h1]
      by_cases h2 : k1 = key
      · subst h2
        simp [assocLookup, h1]
      · simp [assocLookup, h2, ih]

/-- Helper for C1: an insert-or-replace only adds the new binding. -/
theorem mem_upsert (m : List (String × Json)) (k : String) (v : Json) (kv : String × Json)
    (h : kv ∈ upsert m k v) : kv = (k, v) ∨ kv ∈ m := by
  induction m with
  | nil => simpa [upsert] using h
  | cons kv1 rest ih =>
    obtain ⟨k1, v1⟩ := kv1
    simp only [upsert] at h
    by_cases h1 : k1 = k
    · rw [if_pos h1] at h
      rcases List.mem_cons.mp h with h2 | h2
      · left; rw [h2, h1]
      · right; exact List.mem_cons_of_mem _ h2
    · rw [if_neg h1] at h
      rcases List.mem_cons.mp h with h2 | h2
      · right; exact h2 ▸ List.mem_cons_self _ _
      · rcases ih h2 with h3 | h3
        · left; exact h3
        · right; exact List.mem_cons_of_mem _ h3

/-- Helper for C1: the key column after an insert-or-replace. -/
theorem upsert_keys (m : List (String × Json)) (k : String) (v : Json) :
    (upsert m k v).map Prod.fst =
      if k ∈ m.map Prod.fst then m.map Prod.fst else m.map Prod.fst ++ [k] := by
  induction m with
  | nil => simp [upsert]
  | cons kv rest ih =>
    obtain ⟨k1, v1⟩ := kv
    simp only [upsert]
    by_cases h1 : k1 = k
    · subst h1; simp
    · rw [if_neg h1]
      simp only [List.map_cons, ih]
      by_cases h2 : k ∈ rest.map Prod.fst
      · simp [h2, Ne.symm h1]
      · simp [h2, Ne.symm h1]

/-- Helper for C1: insert-or-replace keeps the keys without
duplicates. -/
theorem upsert_keys_nodup (m : List (String × Json)) (k : String) (v : Json)
    (h : (m.map Prod.fst).Nodup) : ((upsert m k v).map Prod.fst).Nodup := by
  rw [upsert_keys]
  split_ifs with h1
  · exact h
  · simp [List.nodup_append, h, h1]

/-- Helper for C1: under unique keys, membership determines lookup. -/
theorem assocLookup_of_mem_nodup (m : List (String × Json)) (k : String) (v : Json)
    (hn : (m.map Prod.fst).Nodup) (hm : (k, v) ∈ m) : assocLookup m k = some v := by
  induction m with
  | nil => cases hm
  | cons kv rest ih =>
    obtain ⟨k1, v1⟩ := kv
    simp only [List.map_cons, List.nodup_cons] at hn
    rcases List.mem_cons.mp hm with h1 | h1
    · injection h1 with h2 h3
      subst h2
      subst h3
      simp [assocLookup]
    · have hk : k ∈ rest.map Prod.fst := List.mem_map.mpr ⟨(k, v), h1, rfl⟩
      have hne : ¬ k1 = k := fun he => hn.1 (he ▸ hk)
      simp [assocLookup, hne, ih hn.2 h1]

/-- Helper for C1: a successful lookup is a member. -/
theorem assocLookup_mem (m : List (String × Json)) (k : String) (v : Json)
    (h : assocLookup m k = some v) : (k, v) ∈ m := by
  induction m with
  | nil => cases h
  | cons kv rest ih =>
    obtain ⟨k1, v1⟩ := kv
    simp only [assocLookup] at h
    by_cases h1 : k1 = k
    · rw [if_pos h1] at h
      injection h with h2
      subst h1
      subst h2
      exact List.mem_cons_self _ _
    · rw [if_neg h1] at h
      exact List.mem_cons_of_mem _ (ih h)

/-- Helper for C1: the deduplication fold's lookup returns the last
record (in insertion order) carrying the looked-up key tuple. -/
theorem dedup_fold_lookup (uf : List String) (rs : List Json) (m : List (String × Json))
    (k : String) :
    assocLookup (rs.foldl (fun acc r => upsert acc (make_unique_key uf r) r) m) k =
      match rs.reverse.find? (fun r => make_unique_key uf r == k) with
      | some r => some r
      | none => assocLookup m k := by
  induction rs generalizing m with
  | nil => simp
  | cons r rs ih =>
    simp only [List.foldl_cons, List.reverse_cons]
    rw [ih, List.find?_append]
    cases hf : rs.reverse.find? (fun r => make_unique_key uf r == k) with
    | some x => simp
    | none =>
      simp only [Option.none_orElse]
      rw [assocLookup_upsert]
      by_cases hp : make_unique_key uf r = k
      · have hb : (make_unique_key uf r == k) = true := by simp [hp]
        simp [List.find?, hb, hp]
      · have hb : (make_unique_key uf r == k) = false := by simp [hp]
        simp [List.find?, hb, Ne.symm hp]

/-- Helper for C1: every entry of the deduplication fold is keyed by
its record's key tuple. -/
theorem dedup_fold_keys (uf : List String) (rs : List Json) (m : List (String × Json))
    (hm : ∀ kv ∈ m, make_unique_key uf kv.2 = kv.1) :
    ∀ kv ∈ rs.foldl (fun acc r => upsert acc (make_unique_key uf r) r) m,
      make_unique_key uf kv.2 = kv.1 := by
  induction rs generalizing m with
  | nil => exact hm
  | cons r rs ih =>
    simp only [List.foldl_cons]
    apply ih
    intro kv hkv
    rcases mem_upsert _ _ _ _ hkv with h1 | h1
    · rw [h1]
    · exact hm kv h1

/-- Helper for C1: the deduplication fold keeps the keys without
duplicates. -/
theorem dedup_fold_nodup (uf : List String) (rs : List Json) (m : List (String × Json))
    (hm : (m.map Prod.fst).Nodup) :
    ((rs.foldl (fun acc r => upsert acc (make_unique_key uf r) r) m).map Prod.fst).Nodup := by
  induction rs generalizing m with
  | nil => exact hm
  | cons r rs ih => exact ih _ (upsert_keys_nodup _ _ _ hm)

/-- Helper for C1: inverting a successful insert into an existing day
file — its new content is the deduplicated concatenation. -/
theorem insert_existing_output (schema : Json) (old new out : List Json)
    (huf : get_unique_fields schema ≠ [])
    (hins : insert_post schema (some old) new = (none, some out)) :
    out = dedup_records (get_unique_fields schema) (old ++ new) := by
  cases hd : insert_day_records schema (some old) new with
  | error e =>
    have heq : insert_post schema (some old) new = (some e, some old) := by
      simp [insert_post, hd]
    rw [heq] at hins
    simp at hins
  | ok content =>
    have heq : insert_post schema (some old) new = (none, some content) := by
      simp [insert_post, hd]
    rw [heq] at hins
    have hco : content = out := by simpa using hins
    subst hco
    cases h1 : validate_records schema new with
    | error e => simp [insert_day_records, h1] at hd
    | ok u =>
      cases h2 : json_to_arrow new with
      | error e => simp [insert_day_records, h1, h2] at hd
      | ok cols =>
        have hne : (get_unique_fields schema).isEmpty = false := by
          cases hu : (get_unique_fields schema).isEmpty
          · rfl
          · exact absurd (List.isEmpty_iff.mp hu) huf
        cases h3 : json_to_arrow (dedup_records (get_unique_fields schema) (old ++ new)) with
        | error e => simp [insert_day_records, h1, h2, hne, h3] at hd
        | ok cols2 =>
          simp only [insert_day_records, h1, h2, hne, h3, Bool.false_eq_true, if_false] at hd
          injection hd with h4
          exact h4.symm

/-- C1 counterexample: when a single insert call creates the day file,
no deduplication runs — two records sharing the unique-key tuple `k`
are both written, so the freshly created day file holds two records
with the same key tuple, refuting the claim for the creating call. -/
theorem C1_counterexample :
    get_unique_fields c1Schema = ["k"] ∧
    make_unique_key ["k"] c1Rec1 = make_unique_key ["k"] c1Rec2 ∧
    (json_get c1Rec1 "t").bind Json.as_i64 = some 1 ∧
    (json_get c1Rec2 "t").bind Json.as_i64 = some 2 ∧
    insert_post c1Schema none [c1Rec1, c1Rec2] = (none, some [c1Rec1, c1Rec2]) ∧
    [c1Rec1, c1Rec2].countP
      (fun r => make_unique_key ["k"] r == make_unique_key ["k"] c1Rec1) = 2 :=
  ⟨rfl, rfl, rfl, rfl, rfl, rfl⟩

/-- C1 (amended): when the schema has unique fields and an insert finds
the day file already existing, the rewritten file holds at most one
record per '-'-joined key tuple, each kept record is the last record of
(existing content ++ new batch) carrying its tuple — the most recent
insertion wins — and every inserted tuple is represented. -/
theorem C1_dedup_last_wins_on_existing_file (schema : Json) (old new out : List Json)
    (huf : get_unique_fields schema ≠ [])
    (hins : insert_post schema (some old) new = (none, some out)) :
    (∀ key : String,
      out.countP (fun r => make_unique_key (get_unique_fields schema) r == key) ≤ 1) ∧
    (∀ r ∈ out,
      (old ++ new).reverse.find? (fun x => make_unique_key (get_unique_fields schema) x ==
        make_unique_key (get_unique_fields schema) r) = some r) ∧
    (∀ x ∈ old ++ new, ∃ r ∈ out,
      make_unique_key (get_unique_fields schema) r = make_unique_key (get_unique_fields schema) x) := by
  have hout := insert_existing_output schema old new out huf hins
  set uf := get_unique_fields schema with hufdef
  set M := (old ++ new).foldl (fun acc r => upsert acc (make_unique_key uf r) r) [] with hM
  have houtM : out = M.map Prod.snd := by rw [hout]; rfl
  have hkeys : ∀ kv ∈ M, make_unique_key uf kv.2 = kv.1 := by
    rw [hM]; exact dedup_fold_keys uf (old ++ new) [] (by simp)
  have hnodup : (M.map Prod.fst).Nodup := by
    rw [hM]; exact dedup_fold_nodup uf (old ++ new) [] (by simp)
  refine ⟨?_, ?_, ?_⟩
  · intro key
    rw [houtM, List.countP_map]
    have hcong : M.countP ((fun r => make_unique_key uf r == key) ∘ Prod.snd) =
        M.countP ((fun s => s == key) ∘ Prod.fst) := by
      apply List.countP_congr
      intro kv hkv
      simp [Function.comp, hkeys kv hkv]
    rw [hcong, ← List.countP_map]
    exact List.nodup_iff_count_le_one.mp hnodup key
  · intro r hr
    rw [houtM] at hr
    obtain ⟨kv, hkv, hsnd⟩ := List.mem_map.mp hr
    have hk : make_unique_key uf r = kv.1 := hsnd ▸ hkeys kv hkv
    have hlook : assocLookup M (make_unique_key uf r) = some r := by
      rw [hk]
      exact assocLookup_of_mem_nodup M kv.1 r hnodup (by rw [← hsnd]; exact hkv)
    rw [hM, dedup_fold_lookup] at hlook
    cases hf : (old ++ new).reverse.find?
        (fun x => make_unique_key uf x == make_unique_key uf r) with
    | none => rw [hf] at hlook; cases hlook
    | some y =>
      rw [hf] at hlook
      injection hlook with h5
      rw [h5]
  · intro x hx
    have hlook := dedup_fold_lookup uf (old ++ new) [] (make_unique_key uf x)
    rw [← hM] at hlook
    cases hf : (old ++ new).reverse.find?
        (fun y => make_unique_key uf y == make_unique_key uf x) with
    | none =>
      have := List.find?_eq_none.mp hf x (List.mem_reverse.mpr hx)
      simp at this
    | some y =>
      rw [hf] at hlook
      have hy : assocLookup M (make_unique_key uf x) = some y := hlook
      have hmem : (make_unique_key uf x, y) ∈ M := assocLookup_mem _ _ _ hy
      refine ⟨y, ?_, ?_⟩
      · rw [houtM]; exact List.mem_map.mpr ⟨_, hmem, rfl⟩
      · exact hkeys _ hmem
/-- Witness for C1 (amended) at a concrete input: inserting a second
record with key "a" into a day file holding the first leaves exactly
the later record. -/
theorem C1_dedup_last_wins_witness :
    get_unique_fields c1Schema ≠ [] ∧
    ((∀ key : String,
      [c1Rec2].countP (fun r => make_unique_key (get_unique_fields c1Schema) r == key) ≤ 1) ∧
    (∀ r ∈ [c1Rec2],
      ([c1Rec1] ++ [c1Rec2]).reverse.find? (fun x => make_unique_key (get_unique_fields c1Schema) x ==
        make_unique_key (get_unique_fields c1Schema) r) = some r) ∧
    (∀ x ∈ [c1Rec1] ++ [c1Rec2], ∃ r ∈ [c1Rec2],
      make_unique_key (get_unique_fields c1Schema) r = make_unique_key (get_unique_fields c1Schema) x)) :=
  ⟨by decide, C1_dedup_last_wins_on_existing_file c1Schema [c1Rec1] [c1Rec2] [c1Rec2]
    (by decide) rfl⟩

end Timon
